import Mathlib

/-!
Verification development for the chops-net-ip core.

This file gives a shallow embedding of the sequential semantics of three
components of the library and proves the specified properties about them:

* `net_entity_base` (from `net_entity_base.hpp`): the shared start/stop
  guard and shutdown-callback holder of every network entity.  The C++
  class guards the `m_started` flag with `compare_exchange_strong` on an
  atomic bool; the embedding models the functional (single-thread
  interleaving) behaviour of each method: its return value, the successor
  state, and the list of shutdown-callback invocations the method performs.
* `io_base` (its implementation header is not part of the sources at hand,
  only its unit test; it is therefore modelled from the specification):
  the shared `io_started` flag, the `write_in_progress` guard and the
  output queue with element/byte statistics.
* `wait_queue` (from `wait_queue.hpp`): the MPMC queue with open/close
  semantics.  Each method is modelled by the state transformation it
  performs under the queue mutex.

An empty `std::function` member is modelled as `none`; a stored callback
as `some f`.
-/

namespace ChopsNet

/-! ## net_entity_base (translated from net_entity_base.hpp) -/

/-- State of `chops::net::detail::net_entity_base`: the atomic `m_started`
flag and the stored shutdown callback (`none` models the empty
`std::function` the default constructor produces). -/
structure net_entity_base (CB : Type) where
  m_started : Bool
  m_shutdown_change_cb : Option CB
deriving DecidableEq

/-- Default-constructed `net_entity_base`: `m_started(false)`,
`m_shutdown_change_cb()` (empty). -/
def net_entity_base.init {CB : Type} : net_entity_base CB :=
  { m_started := false, m_shutdown_change_cb := none }

/-- `is_started()`. -/
def net_entity_base.is_started {CB : Type} (s : net_entity_base CB) : Bool :=
  s.m_started

/-- `start(shutdown_func)`: `compare_exchange_strong` of `m_started` from
`false` to `true`; on success stores the callback and returns `true`,
otherwise returns `false` and changes nothing.  The returned triple is
(return value, successor state, shutdown callbacks invoked by the call);
the body of `start` never invokes the stored callback, so the third
component is always `[]`. -/
def net_entity_base.start {CB : Type} (s : net_entity_base CB) (f : CB) :
    Bool × net_entity_base CB × List CB :=
  if s.m_started = false then
    (true, { m_started := true, m_shutdown_change_cb := some f }, [])
  else
    (false, s, [])

/-- `stop()`: `compare_exchange_strong` of `m_started` from `true` to
`false`; returns whether the exchange happened.  The body touches nothing
else: the stored callback is neither cleared nor invoked. -/
def net_entity_base.stop {CB : Type} (s : net_entity_base CB) :
    Bool × net_entity_base CB × List CB :=
  if s.m_started = true then
    (true, { m_started := false, m_shutdown_change_cb := s.m_shutdown_change_cb }, [])
  else
    (false, s, [])

/-- `call_shutdown_change_cb(p, err, sz)`: invokes the stored callback.
Returned are the successor state (unchanged) and the invocation list; an
empty `std::function` yields no well-defined invocation, modelled by
`Option.toList`. -/
def net_entity_base.call_shutdown_change_cb {CB : Type} (s : net_entity_base CB) :
    net_entity_base CB × List CB :=
  (s, s.m_shutdown_change_cb.toList)

/-- Results of a sequence of `start` calls, each applied to the state the
previous one produced. -/
def run_starts {CB : Type} (s : net_entity_base CB) : List CB → List Bool
  | [] => []
  | f :: fs => (s.start f).1 :: run_starts (s.start f).2.1 fs

/-! ## io_base and its output queue

The implementation headers `net_ip/detail/io_base.hpp` and
`net_ip/detail/output_queue.hpp` are not among the sources at hand; only
the unit test of `io_base` is.  The definitions below are therefore
modelled from the specification (its §4.2 and §4.3), and the concrete
scenarios of the unit test are re-checked against the model in the
witnesses.  Byte buffers are byte lists; `endpoint?` is an `Option`. -/

/-- Modelled from the spec: the output queue of `io_base`
(`net_ip/detail/output_queue.hpp`, not among the sources at hand).  A
FIFO of (byte buffer, optional endpoint) pairs with constant-time
push-back and pop-front and a maintained total byte counter. -/
structure output_queue (EP : Type) where
  q : List (List Nat × Option EP)
  bytes : Nat
deriving DecidableEq

/-- Empty output queue. -/
def output_queue.empty {EP : Type} : output_queue EP :=
  { q := [], bytes := 0 }

/-- Push-back of an element, adding its buffer size to the byte counter. -/
def output_queue.push {EP : Type} (oq : output_queue EP) (b : List Nat)
    (e : Option EP) : output_queue EP :=
  { q := oq.q ++ [(b, e)], bytes := oq.bytes + b.length }

/-- Pop-front of an element, subtracting its buffer size from the byte
counter; `none` when the queue is empty. -/
def output_queue.pop {EP : Type} (oq : output_queue EP) :
    Option ((List Nat × Option EP) × output_queue EP) :=
  match oq.q with
  | [] => none
  | x :: rest => some (x, { q := rest, bytes := oq.bytes - x.1.length })

/-- Modelled from the spec: state of `chops::net::detail::io_base`
(`net_ip/detail/io_base.hpp`, not among the sources at hand): the
`io_started` flag, the `write_in_progress` guard and the output queue,
all serialized by one lock in the implementation. -/
structure io_base (EP : Type) where
  io_started : Bool
  write_in_progress : Bool
  outq : output_queue EP
deriving DecidableEq

/-- Default-constructed `io_base`: not started, no write in progress,
empty queue (the state the unit test checks first). -/
def io_base.init {EP : Type} : io_base EP :=
  { io_started := false, write_in_progress := false, outq := output_queue.empty }

/-- Modelled from the spec: `is_io_started()`. -/
def io_base.is_io_started {EP : Type} (s : io_base EP) : Bool :=
  s.io_started

/-- Modelled from the spec: `is_write_in_progress()`. -/
def io_base.is_write_in_progress {EP : Type} (s : io_base EP) : Bool :=
  s.write_in_progress

/-- Modelled from the spec: `set_io_started()`, transition false→true,
returning false if already started. -/
def io_base.set_io_started {EP : Type} (s : io_base EP) : Bool × io_base EP :=
  if s.io_started then (false, s) else (true, { s with io_started := true })

/-- Modelled from the spec: `start_write_setup(buf, endpoint?)`.  If not
`io_started`, return false.  If no write is in progress, mark one in
progress, do not enqueue, return true.  Otherwise append to the output
queue and return false. -/
def io_base.start_write_setup {EP : Type} (s : io_base EP) (b : List Nat)
    (e : Option EP) : Bool × io_base EP :=
  if s.io_started = false then (false, s)
  else if s.write_in_progress = false then
    (true, { s with write_in_progress := true })
  else
    (false, { s with outq := s.outq.push b e })

/-- Modelled from the spec: `get_next_element()`.  If the queue is empty,
clear `write_in_progress` and return empty; else dequeue and return the
head. -/
def io_base.get_next_element {EP : Type} (s : io_base EP) :
    Option (List Nat × Option EP) × io_base EP :=
  match s.outq.pop with
  | none => (none, { s with write_in_progress := false })
  | some (x, oq2) => (some x, { s with outq := oq2 })

/-- Statistics record, with the field names of the unit test. -/
structure output_queue_stats where
  output_queue_size : Nat
  bytes_in_output_queue : Nat
deriving DecidableEq

/-- Modelled from the spec: `get_output_queue_stats()`. -/
def io_base.get_output_queue_stats {EP : Type} (s : io_base EP) :
    output_queue_stats :=
  { output_queue_size := s.outq.q.length, bytes_in_output_queue := s.outq.bytes }

/-- Concrete `io_base` state of the unit test after `set_io_started`:
started, no write in progress, empty queue (endpoints as naturals). -/
def iob_started : io_base Nat :=
  { io_started := true, write_in_progress := false, outq := output_queue.empty }

/-- Concrete `io_base` state: started, write in progress, empty queue. -/
def iob_wip : io_base Nat :=
  { io_started := true, write_in_progress := true, outq := output_queue.empty }

/-- Concrete `io_base` state: started, write in progress, two queued
buffers of one byte each. -/
def iob_wip2 : io_base Nat :=
  { io_started := true, write_in_progress := true,
    outq := { q := [([7], some 1), ([8], some 2)], bytes := 2 } }

/-- Operation alphabet for sequences of `io_base` calls. -/
inductive IoOp (EP : Type) where
  | setIoStarted : IoOp EP
  | startWrite (b : List Nat) (e : Option EP) : IoOp EP
  | getNext : IoOp EP
deriving DecidableEq

/-- One `io_base` call, keeping only the successor state. -/
def io_step {EP : Type} (s : io_base EP) : IoOp EP → io_base EP
  | .setIoStarted => (s.set_io_started).2
  | .startWrite b e => (s.start_write_setup b e).2
  | .getNext => (s.get_next_element).2

/-- A sequence of `io_base` calls. -/
def io_run {EP : Type} (s : io_base EP) : List (IoOp EP) → io_base EP
  | [] => s
  | op :: ops => io_run (io_step s op) ops

/-- The two-state invariant of §4.2: when no write is in progress the
output queue is empty. -/
def io_inv {EP : Type} (s : io_base EP) : Prop :=
  s.write_in_progress = false → s.outq.q = []

/-- Accounting invariant: the maintained byte counter equals the sum of
the sizes of the currently queued buffers. -/
def bytes_inv {EP : Type} (s : io_base EP) : Prop :=
  s.outq.bytes = (s.outq.q.map (fun p => p.1.length)).sum

/-! ## wait_queue (translated from wait_queue.hpp)

Each method is modelled by the state transformation it performs while
holding the queue mutex.  `wait_and_pop` blocks until the queue is closed
or non-empty; a call made in a state where neither holds is modelled as
`none` (the call does not return). -/

/-- State of `chops::wait_queue`: the internal container and the
`m_closed` flag. -/
structure wait_queue (T : Type) where
  m_data_queue : List T
  m_closed : Bool
deriving DecidableEq

/-- Default-constructed `wait_queue`: empty and open. -/
def wait_queue.init {T : Type} : wait_queue T :=
  { m_data_queue := [], m_closed := false }

/-- `open()`: clears `m_closed`. -/
def wq_open {T : Type} (s : wait_queue T) : wait_queue T :=
  { s with m_closed := false }

/-- `close()`: sets `m_closed` (and notifies all waiting readers). -/
def wq_close {T : Type} (s : wait_queue T) : wait_queue T :=
  { s with m_closed := true }

/-- `push(const T&)`: fails when closed, otherwise appends at the back. -/
def wq_push {T : Type} (s : wait_queue T) (v : T) : Bool × wait_queue T :=
  if s.m_closed then (false, s)
  else (true, { s with m_data_queue := s.m_data_queue ++ [v] })

/-- `push(T&&)`: the move overload, same state semantics as the copy
overload. -/
def wq_push_move {T : Type} (s : wait_queue T) (v : T) : Bool × wait_queue T :=
  if s.m_closed then (false, s)
  else (true, { s with m_data_queue := s.m_data_queue ++ [v] })

/-- `wait_and_pop()`: waits until `m_closed || !m_data_queue.empty()`;
then pops the front if the queue is non-empty, else returns an empty
optional.  `none` models a call that blocks (neither condition holds). -/
def wq_wait_and_pop {T : Type} (s : wait_queue T) :
    Option (Option T × wait_queue T) :=
  if s.m_closed || !s.m_data_queue.isEmpty then
    match s.m_data_queue with
    | [] => some (none, s)
    | x :: rest => some (some x, { s with m_data_queue := rest })
  else none

/-- `try_pop()`: pops the front if immediately available. -/
def wq_try_pop {T : Type} (s : wait_queue T) : Option T × wait_queue T :=
  match s.m_data_queue with
  | [] => (none, s)
  | x :: rest => (some x, { s with m_data_queue := rest })

/-- Operation alphabet for sequences of modifying `wait_queue` calls. -/
inductive WqOp (T : Type) where
  | opn : WqOp T
  | close : WqOp T
  | push (v : T) : WqOp T
  | pushMove (v : T) : WqOp T
  | wpop : WqOp T
  | tpop : WqOp T
deriving DecidableEq

/-- One `wait_queue` call, keeping only the successor state; a blocked
`wait_and_pop` leaves the state unchanged. -/
def wq_step {T : Type} (s : wait_queue T) : WqOp T → wait_queue T
  | .opn => wq_open s
  | .close => wq_close s
  | .push v => (wq_push s v).2
  | .pushMove v => (wq_push_move s v).2
  | .wpop => match wq_wait_and_pop s with
             | some (_, s2) => s2
             | none => s
  | .tpop => (wq_try_pop s).2

/-- A sequence of `wait_queue` calls. -/
def wq_run {T : Type} (s : wait_queue T) : List (WqOp T) → wait_queue T
  | [] => s
  | op :: ops => wq_run (wq_step s op) ops

lemma run_starts_of_started {CB : Type} (s : net_entity_base CB)
    (h : s.m_started = true) :
    ∀ fs : List CB, run_starts s fs = List.replicate fs.length false := by
  intro fs
  induction fs generalizing s with
  | nil => rfl
  | cons f fs ih =>
      have hs : s.start f = (false, s, []) := by
        simp [net_entity_base.start, h]
      simp [run_starts, hs, List.replicate, ih s h]

lemma run_starts_count_le_one {CB : Type} (s : net_entity_base CB)
    (fs : List CB) : (run_starts s fs).count true ≤ 1 := by
  induction fs generalizing s with
  | nil => simp [run_starts]
  | cons f fs ih =>
      by_cases h : s.m_started = true
      · have hs : s.start f = (false, s, []) := by
          simp [net_entity_base.start, h]
        simp [run_starts, hs, List.count_cons]
        have := run_starts_of_started s h fs
        simp [this, List.count_replicate]
      · have hb : s.m_started = false := by
          revert h; cases s.m_started <;> simp
        have hs : s.start f =
            (true, { m_started := true, m_shutdown_change_cb := some f }, []) := by
          simp [net_entity_base.start, hb]
        have hrest := run_starts_of_started
          ({ m_started := true, m_shutdown_change_cb := some f } : net_entity_base CB)
          rfl fs
        simp [run_starts, hs, hrest, List.count_cons, List.count_replicate]

end ChopsNet

namespace ChopsNet

/-- C1: a start from the not-started state wins the compare-and-set, stores
the supplied shutdown callback and returns true; a start on an already
started entity returns false and leaves state (hence the previously stored
callback) unchanged; consequently, among any sequence of starts with no
intervening stop, at most one returns true. -/
theorem c1_start_single_winner {CB : Type} (s : net_entity_base CB) (f : CB)
    (fs : List CB) :
    (s.m_started = false →
      s.start f = (true, { m_started := true, m_shutdown_change_cb := some f }, []))
    ∧ (s.m_started = true →
      (s.start f).1 = false ∧ (s.start f).2.1 = s)
    ∧ (run_starts s fs).count true ≤ 1 := by
  refine ⟨?_, ?_, run_starts_count_le_one s fs⟩
  · intro h; simp [net_entity_base.start, h]
  · intro h; simp [net_entity_base.start, h]

/-- Witness for C1 at a concrete entity (callbacks coded as naturals). -/
theorem c1_start_single_winner_witness :
    ((net_entity_base.init : net_entity_base Nat).m_started = false ∧
      (net_entity_base.init : net_entity_base Nat).start 7 =
        (true, { m_started := true, m_shutdown_change_cb := some 7 }, []))
    ∧ (({ m_started := true, m_shutdown_change_cb := some 3 } :
          net_entity_base Nat).m_started = true ∧
        (({ m_started := true, m_shutdown_change_cb := some 3 } :
          net_entity_base Nat).start 9).1 = false)
    ∧ (run_starts (net_entity_base.init : net_entity_base Nat) [7, 9, 11]).count true ≤ 1 := by
  refine ⟨⟨rfl, ?_⟩, ⟨rfl, ?_⟩, ?_⟩
  · exact (c1_start_single_winner (net_entity_base.init : net_entity_base Nat) 7 []).1 rfl
  · exact ((c1_start_single_winner
      ({ m_started := true, m_shutdown_change_cb := some 3 } : net_entity_base Nat)
      9 []).2.1 rfl).1
  · exact (c1_start_single_winner (net_entity_base.init : net_entity_base Nat) 0 [7, 9, 11]).2.2

/-- C6: stop returns true exactly when the entity was started, leaves the
entity stopped, is a no-op returning false when already stopped, and never
itself invokes the stored shutdown callback — the invocation happens only
through call_shutdown_change_cb. -/
theorem c6_stop_semantics {CB : Type} (s : net_entity_base CB) :
    ((s.stop).1 = s.m_started)
    ∧ ((s.stop).2.1.m_started = false)
    ∧ (s.m_started = false → s.stop = (false, s, []))
    ∧ ((s.stop).2.2 = [])
    ∧ ((s.call_shutdown_change_cb).2 = s.m_shutdown_change_cb.toList) := by
  refine ⟨?_, ?_, ?_, ?_, rfl⟩
  · cases h : s.m_started <;> simp [net_entity_base.stop, h]
  · cases h : s.m_started <;> simp [net_entity_base.stop, h]
  · intro h; simp [net_entity_base.stop, h]
  · cases h : s.m_started <;> simp [net_entity_base.stop, h]

/-- Witness for C6 at a concrete started entity. -/
theorem c6_stop_semantics_witness :
    ((({ m_started := true, m_shutdown_change_cb := some 5 } :
        net_entity_base Nat).stop).1 = true)
    ∧ ((net_entity_base.init : net_entity_base Nat).m_started = false ∧
        (net_entity_base.init : net_entity_base Nat).stop =
          (false, net_entity_base.init, [])) := by
  refine ⟨?_, rfl, ?_⟩
  · exact (c6_stop_semantics
      ({ m_started := true, m_shutdown_change_cb := some 5 } : net_entity_base Nat)).1
  · exact (c6_stop_semantics (net_entity_base.init : net_entity_base Nat)).2.2.1 rfl

/-- C7 counterexample: start an entity with callback 7, then stop it.  The
stop succeeds (returns true), yet the entity still holds the callback:
`m_shutdown_change_cb` is `some 7`, not cleared.  This refutes the claim
that the callback is reset to an empty function by the time stop
completes. -/
theorem c7_stop_keeps_cb_cex :
    ((((net_entity_base.init : net_entity_base Nat).start 7).2.1).stop).1 = true
    ∧ ((((net_entity_base.init : net_entity_base Nat).start 7).2.1).stop).2.1.m_shutdown_change_cb
        = some 7 := by
  exact ⟨rfl, rfl⟩

/-- C7 amended: the stored shutdown callback is set by a winning start and
is retained unchanged by stop; after a stop (successful or not) the entity
still holds the previously supplied callback. -/
theorem c7_amended_stop_retains_cb {CB : Type} (s : net_entity_base CB) (f : CB) :
    (s.m_started = false → ((s.start f).2.1).m_shutdown_change_cb = some f)
    ∧ ((s.stop).2.1.m_shutdown_change_cb = s.m_shutdown_change_cb) := by
  constructor
  · intro h; simp [net_entity_base.start, h]
  · cases h : s.m_started <;> simp [net_entity_base.stop, h]

/-- Witness for the amended C7 at a concrete entity. -/
theorem c7_amended_stop_retains_cb_witness :
    ((net_entity_base.init : net_entity_base Nat).m_started = false ∧
      (((net_entity_base.init : net_entity_base Nat).start 4).2.1).m_shutdown_change_cb = some 4)
    ∧ ((({ m_started := true, m_shutdown_change_cb := some 4 } :
        net_entity_base Nat).stop).2.1.m_shutdown_change_cb = some 4) := by
  refine ⟨⟨rfl, ?_⟩, ?_⟩
  · exact (c7_amended_stop_retains_cb (net_entity_base.init : net_entity_base Nat) 4).1 rfl
  · exact (c7_amended_stop_retains_cb
      ({ m_started := true, m_shutdown_change_cb := some 4 } : net_entity_base Nat) 4).2

end ChopsNet

namespace ChopsNet

lemma io_inv_step {EP : Type} (s : io_base EP) (op : IoOp EP)
    (h : io_inv s) : io_inv (io_step s op) := by
  obtain ⟨ist, wip, ⟨qq, bb⟩⟩ := s
  cases op with
  | setIoStarted =>
      cases ist <;> simpa [io_step, io_base.set_io_started, io_inv] using h
  | startWrite b e =>
      cases ist
      · simpa [io_step, io_base.start_write_setup, io_inv] using h
      · cases wip
        · simp [io_step, io_base.start_write_setup, io_inv]
        · simp [io_step, io_base.start_write_setup, io_inv, output_queue.push]
  | getNext =>
      cases qq with
      | nil => simp [io_step, io_base.get_next_element, output_queue.pop, io_inv]
      | cons x rest =>
          cases wip
          · have h0 : x :: rest = [] := h rfl
            exact absurd h0 (List.cons_ne_nil x rest)
          · simp [io_step, io_base.get_next_element, output_queue.pop, io_inv]

lemma io_inv_run {EP : Type} (s : io_base EP) (ops : List (IoOp EP))
    (h : io_inv s) : io_inv (io_run s ops) := by
  induction ops generalizing s with
  | nil => exact h
  | cons op ops ih => exact ih _ (io_inv_step s op h)

lemma bytes_inv_step {EP : Type} (s : io_base EP) (op : IoOp EP)
    (h : bytes_inv s) : bytes_inv (io_step s op) := by
  obtain ⟨ist, wip, ⟨qq, bb⟩⟩ := s
  cases op with
  | setIoStarted =>
      cases ist <;> simpa [io_step, io_base.set_io_started, bytes_inv] using h
  | startWrite b e =>
      cases ist
      · simpa [io_step, io_base.start_write_setup, bytes_inv] using h
      · cases wip
        · simpa [io_step, io_base.start_write_setup, bytes_inv] using h
        · simp [io_step, io_base.start_write_setup, bytes_inv,
            output_queue.push] at h ⊢
          omega
  | getNext =>
      cases qq with
      | nil => simpa [io_step, io_base.get_next_element, output_queue.pop,
          bytes_inv] using h
      | cons x rest =>
          simp [io_step, io_base.get_next_element, output_queue.pop,
            bytes_inv] at h ⊢
          omega

lemma bytes_inv_run {EP : Type} (s : io_base EP) (ops : List (IoOp EP))
    (h : bytes_inv s) : bytes_inv (io_run s ops) := by
  induction ops generalizing s with
  | nil => exact h
  | cons op ops ih => exact ih _ (bytes_inv_step s op h)

/-- C2: start_write_setup returns false and changes nothing when the
handler is not started; when started and no write is in progress it marks
the write in progress, enqueues nothing and returns true; when started
and a write is in progress it appends the (buffer, endpoint) pair at the
back of the output queue — the queue grows by exactly one element — and
returns false. -/
theorem c2_start_write_setup_spec {EP : Type} (s : io_base EP) (b : List Nat)
    (e : Option EP) :
    (s.io_started = false → s.start_write_setup b e = (false, s))
    ∧ (s.io_started = true → s.write_in_progress = false →
        s.start_write_setup b e = (true, { s with write_in_progress := true }))
    ∧ (s.io_started = true → s.write_in_progress = true →
        (s.start_write_setup b e).1 = false
        ∧ (s.start_write_setup b e).2.outq.q = s.outq.q ++ [(b, e)]
        ∧ (s.start_write_setup b e).2.outq.q.length = s.outq.q.length + 1
        ∧ (s.start_write_setup b e).2.write_in_progress = true) := by
  obtain ⟨ist, wip, ⟨qq, bb⟩⟩ := s
  refine ⟨?_, ?_, ?_⟩
  · intro h1; subst h1; rfl
  · intro h1 h2; subst h1; subst h2; rfl
  · intro h1 h2; subst h1; subst h2
    exact ⟨rfl, rfl, by simp [io_base.start_write_setup, output_queue.push], rfl⟩

/-- Witness for C2 on the three concrete states of the unit test
(endpoints coded as naturals). -/
theorem c2_start_write_setup_spec_witness :
    ((io_base.init : io_base Nat).io_started = false ∧
      (io_base.init : io_base Nat).start_write_setup [1, 2] none =
        (false, io_base.init))
    ∧ (iob_started.io_started = true ∧ iob_started.write_in_progress = false ∧
        iob_started.start_write_setup [1, 2] none = (true, iob_wip))
    ∧ (iob_wip.io_started = true ∧ iob_wip.write_in_progress = true ∧
        (iob_wip.start_write_setup [1, 2, 3] (some 0)).2.outq.q =
          [([1, 2, 3], some 0)]) := by
  refine ⟨⟨rfl, ?_⟩, ⟨rfl, rfl, ?_⟩, ⟨rfl, rfl, ?_⟩⟩
  · exact (c2_start_write_setup_spec (io_base.init : io_base Nat)
      [1, 2] none).1 rfl
  · exact (c2_start_write_setup_spec iob_started [1, 2] none).2.1 rfl rfl
  · exact ((c2_start_write_setup_spec iob_wip [1, 2, 3] (some 0)).2.2
      rfl rfl).2.1

/-- C3: get_next_element on an empty queue clears write_in_progress and
returns the empty optional; on a non-empty queue it dequeues and returns
the head (FIFO front) leaving write_in_progress as it was — hence true,
on any state satisfying the §4.2 invariant. -/
theorem c3_get_next_element_spec {EP : Type} (s : io_base EP) :
    (s.outq.q = [] →
      s.get_next_element = (none, { s with write_in_progress := false }))
    ∧ (∀ x rest, s.outq.q = x :: rest →
        (s.get_next_element).1 = some x
        ∧ (s.get_next_element).2.outq.q = rest
        ∧ (s.get_next_element).2.write_in_progress = s.write_in_progress)
    ∧ (io_inv s → ∀ x rest, s.outq.q = x :: rest →
        (s.get_next_element).2.write_in_progress = true) := by
  obtain ⟨ist, wip, ⟨qq, bb⟩⟩ := s
  refine ⟨?_, ?_, ?_⟩
  · intro h; subst h; rfl
  · intro x rest h; subst h; exact ⟨rfl, rfl, rfl⟩
  · intro hinv x rest h
    cases wip
    · have h0 := hinv rfl
      rw [h] at h0
      exact absurd h0 (List.cons_ne_nil x rest)
    · subst h; rfl

/-- Witness for C3 on concrete queues (endpoints coded as naturals). -/
theorem c3_get_next_element_spec_witness :
    (iob_wip.outq.q = [] ∧ iob_wip.get_next_element = (none, iob_started))
    ∧ (iob_wip2.outq.q = ([7], some 1) :: [([8], some 2)] ∧
        (iob_wip2.get_next_element).1 = some ([7], some 1))
    ∧ ((iob_wip2.get_next_element).2.write_in_progress = true) := by
  refine ⟨⟨rfl, ?_⟩, ⟨rfl, ?_⟩, ?_⟩
  · exact (c3_get_next_element_spec iob_wip).1 rfl
  · exact ((c3_get_next_element_spec iob_wip2).2.1 ([7], some 1)
      [([8], some 2)] rfl).1
  · exact (c3_get_next_element_spec iob_wip2).2.2
      (fun h => by simp [iob_wip2] at h) ([7], some 1) [([8], some 2)] rfl

/-- C4: starting from a fresh handler, no sequence of set_io_started,
start_write_setup and get_next_element calls reaches a state where no
write is in progress yet the output queue is non-empty. -/
theorem c4_write_in_progress_invariant {EP : Type} (ops : List (IoOp EP)) :
    io_inv (io_run io_base.init ops) :=
  io_inv_run _ ops (fun _ => rfl)

/-- Witness for C4 on a concrete operation sequence. -/
theorem c4_write_in_progress_invariant_witness :
    io_inv (io_run (io_base.init : io_base Nat)
      [IoOp.setIoStarted, IoOp.startWrite [1, 2] none,
        IoOp.startWrite [3] none, IoOp.getNext, IoOp.getNext, IoOp.getNext]) :=
  c4_write_in_progress_invariant _

end ChopsNet

namespace ChopsNet

lemma io_run_append {EP : Type} (s : io_base EP) (l1 l2 : List (IoOp EP)) :
    io_run s (l1 ++ l2) = io_run (io_run s l1) l2 := by
  induction l1 generalizing s with
  | nil => rfl
  | cons op ops ih => simp [io_run, ih]

lemma io_run_pushes {EP : Type} (b : List Nat) (e : Option EP) :
    ∀ (k : Nat) (qq : List (List Nat × Option EP)) (bb : Nat),
      io_run (⟨true, true, ⟨qq, bb⟩⟩ : io_base EP)
          (List.replicate k (IoOp.startWrite b e)) =
        ⟨true, true, ⟨qq ++ List.replicate k (b, e), bb + k * b.length⟩⟩ := by
  intro k
  induction k with
  | zero => intro qq bb; simp [io_run]
  | succ k ih =>
      intro qq bb
      rw [List.replicate_succ]
      simp only [io_run]
      have hstep : io_step (⟨true, true, ⟨qq, bb⟩⟩ : io_base EP)
          (IoOp.startWrite b e) = ⟨true, true, ⟨qq ++ [(b, e)], bb + b.length⟩⟩ := rfl
      rw [hstep, ih (qq ++ [(b, e)]) (bb + b.length)]
      simp only [io_base.mk.injEq, output_queue.mk.injEq, true_and,
        List.append_assoc, List.singleton_append]
      exact ⟨rfl, by ring⟩

lemma io_run_pops {EP : Type} (x : List Nat × Option EP) :
    ∀ (m j : Nat) (s : io_base EP),
      s.outq = ⟨List.replicate j x, j * x.1.length⟩ →
      (io_run s (List.replicate m IoOp.getNext)).outq =
        ⟨List.replicate (j - m) x, (j - m) * x.1.length⟩ := by
  intro m
  induction m with
  | zero => intro j s h; simpa [io_run] using h
  | succ m ih =>
      intro j s h
      obtain ⟨ist, wip, oq⟩ := s
      simp only at h
      subst h
      rw [List.replicate_succ]
      simp only [io_run]
      cases j with
      | zero =>
          have hstep : io_step
              (⟨ist, wip, ⟨List.replicate 0 x, 0 * x.1.length⟩⟩ : io_base EP)
              IoOp.getNext = ⟨ist, false, ⟨List.replicate 0 x, 0 * x.1.length⟩⟩ := rfl
          rw [hstep]
          have h2 := ih 0 (⟨ist, false, ⟨List.replicate 0 x, 0 * x.1.length⟩⟩ :
            io_base EP) rfl
          rw [h2]
          simp [Nat.zero_sub]
      | succ j =>
          have hstep : io_step
              (⟨ist, wip, ⟨List.replicate (j + 1) x, (j + 1) * x.1.length⟩⟩ : io_base EP)
              IoOp.getNext =
              ⟨ist, wip, ⟨List.replicate j x, (j + 1) * x.1.length - x.1.length⟩⟩ := by
            simp [io_step, io_base.get_next_element, output_queue.pop,
              List.replicate_succ]
          rw [hstep]
          have hb : (j + 1) * x.1.length - x.1.length = j * x.1.length := by
            simp [Nat.succ_mul]
          rw [hb]
          have h2 := ih j (⟨ist, wip, ⟨List.replicate j x, j * x.1.length⟩⟩ :
            io_base EP) rfl
          rw [h2]
          simp [Nat.succ_sub_succ]

/-- C5: with the handler started, N start_write_setup calls followed by
M ≤ N get_next_element calls leave the output queue with exactly
max(0, N-1-M) elements holding (N-1-M) times the buffer size in bytes
(truncated subtraction); and after every operation sequence the byte
counter of get_output_queue_stats equals the sum of the sizes of the
currently queued buffers. -/
theorem c5_queue_accounting {EP : Type} (b : List Nat) (e : Option EP)
    (N M : Nat) (h1 : 1 ≤ N) (h2 : M ≤ N) :
    ((io_run io_base.init (IoOp.setIoStarted ::
        (List.replicate N (IoOp.startWrite b e) ++
          List.replicate M IoOp.getNext))).get_output_queue_stats =
      { output_queue_size := N - 1 - M,
        bytes_in_output_queue := (N - 1 - M) * b.length })
    ∧ (∀ ops : List (IoOp EP),
        ((io_run io_base.init ops).get_output_queue_stats).bytes_in_output_queue =
          ((io_run io_base.init ops).outq.q.map (fun p => p.1.length)).sum) := by
  constructor
  · obtain ⟨n, rfl⟩ : ∃ n, N = n + 1 := ⟨N - 1, by omega⟩
    have e1 : io_run (io_base.init : io_base EP) (IoOp.setIoStarted ::
          (List.replicate (n + 1) (IoOp.startWrite b e) ++
            List.replicate M IoOp.getNext)) =
        io_run (⟨true, false, ⟨[], 0⟩⟩ : io_base EP)
          (List.replicate (n + 1) (IoOp.startWrite b e) ++
            List.replicate M IoOp.getNext) := rfl
    rw [e1, List.replicate_succ, List.cons_append]
    have e2 : io_run (⟨true, false, ⟨[], 0⟩⟩ : io_base EP)
          (IoOp.startWrite b e :: (List.replicate n (IoOp.startWrite b e) ++
            List.replicate M IoOp.getNext)) =
        io_run (⟨true, true, ⟨[], 0⟩⟩ : io_base EP)
          (List.replicate n (IoOp.startWrite b e) ++
            List.replicate M IoOp.getNext) := rfl
    rw [e2, io_run_append, io_run_pushes b e n [] 0]
    simp only [List.nil_append, Nat.zero_add]
    have hpop := io_run_pops (b, e) M n
      (⟨true, true, ⟨List.replicate n (b, e), n * b.length⟩⟩ : io_base EP) rfl
    simp only [io_base.get_output_queue_stats]
    rw [hpop]
    simp [Nat.add_sub_cancel]
  · intro ops
    exact bytes_inv_run io_base.init ops rfl

/-- Witness for C5 on the unit-test scenario: 20 buffers of 5 bytes, then
0 (resp. 18) dequeues, giving 19 elements and 95 bytes (resp. 1 element
and 5 bytes); plus the byte counter at a concrete intermediate point. -/
theorem c5_queue_accounting_witness :
    ((1:Nat) ≤ 20 ∧ (0:Nat) ≤ 20 ∧
      (io_run (io_base.init : io_base Nat) (IoOp.setIoStarted ::
        (List.replicate 20 (IoOp.startWrite [32, 33, 34, 35, 36] (some 0)) ++
          List.replicate 0 IoOp.getNext))).get_output_queue_stats =
        { output_queue_size := 19, bytes_in_output_queue := 95 })
    ∧ ((18:Nat) ≤ 20 ∧
      (io_run (io_base.init : io_base Nat) (IoOp.setIoStarted ::
        (List.replicate 20 (IoOp.startWrite [32, 33, 34, 35, 36] (some 0)) ++
          List.replicate 18 IoOp.getNext))).get_output_queue_stats =
        { output_queue_size := 1, bytes_in_output_queue := 5 })
    ∧ (((io_run (io_base.init : io_base Nat)
          [IoOp.setIoStarted, IoOp.startWrite [1, 2] none,
            IoOp.startWrite [3] none]).get_output_queue_stats).bytes_in_output_queue =
        (((io_run (io_base.init : io_base Nat)
          [IoOp.setIoStarted, IoOp.startWrite [1, 2] none,
            IoOp.startWrite [3] none]).outq.q.map (fun p => p.1.length)).sum)) := by
  refine ⟨⟨by decide, by decide, ?_⟩, ⟨by decide, ?_⟩, ?_⟩
  · exact (c5_queue_accounting [32, 33, 34, 35, 36] (some 0) 20 0
      (by decide) (by decide)).1
  · exact (c5_queue_accounting [32, 33, 34, 35, 36] (some 0) 20 18
      (by decide) (by decide)).1
  · exact (c5_queue_accounting [9] none 1 0 (by decide) (by decide)).2
      [IoOp.setIoStarted, IoOp.startWrite [1, 2] none, IoOp.startWrite [3] none]

end ChopsNet

namespace ChopsNet

lemma wq_step_closed {T : Type} (s : wait_queue T) (op : WqOp T)
    (hop : op ≠ WqOp.opn) (h : s.m_closed = true) :
    (wq_step s op).m_closed = true := by
  cases op with
  | opn => exact absurd rfl hop
  | close => simp [wq_step, wq_close]
  | push v => simp [wq_step, wq_push, h]
  | pushMove v => simp [wq_step, wq_push_move, h]
  | wpop =>
      cases hq : s.m_data_queue with
      | nil => simp [wq_step, wq_wait_and_pop, h, hq]
      | cons x rest => simp [wq_step, wq_wait_and_pop, h, hq]
  | tpop =>
      cases hq : s.m_data_queue with
      | nil => simp [wq_step, wq_try_pop, h, hq]
      | cons x rest => simp [wq_step, wq_try_pop, h, hq]

lemma wq_run_closed {T : Type} (s : wait_queue T) (ops : List (WqOp T))
    (hops : WqOp.opn ∉ ops) (h : s.m_closed = true) :
    (wq_run s ops).m_closed = true := by
  induction ops generalizing s with
  | nil => exact h
  | cons op ops ih =>
      have h1 : op ≠ WqOp.opn := by
        intro he
        exact hops (he ▸ List.mem_cons_self op ops)
      have h2 : WqOp.opn ∉ ops := fun hm => hops (List.mem_cons_of_mem _ hm)
      exact ih _ h2 (wq_step_closed s op h1 h)

/-- C8: once close has returned, and as long as open is not called, every
push — copy or move overload — returns false and leaves the queue
unchanged, no matter which other operations ran in between. -/
theorem c8_push_after_close_fails {T : Type} (s : wait_queue T)
    (ops : List (WqOp T)) (v : T) (hops : WqOp.opn ∉ ops) :
    ((wq_push (wq_run (wq_close s) ops) v).1 = false)
    ∧ ((wq_push (wq_run (wq_close s) ops) v).2 = wq_run (wq_close s) ops)
    ∧ ((wq_push_move (wq_run (wq_close s) ops) v).1 = false)
    ∧ ((wq_push_move (wq_run (wq_close s) ops) v).2 = wq_run (wq_close s) ops) := by
  have hc : (wq_run (wq_close s) ops).m_closed = true :=
    wq_run_closed (wq_close s) ops hops (by simp [wq_close])
  refine ⟨?_, ?_, ?_, ?_⟩ <;> simp [wq_push, wq_push_move, hc]

/-- Witness for C8: close, then a push, a pop, a second close and a
try_pop, then push 5 — it fails. -/
theorem c8_push_after_close_fails_witness :
    (WqOp.opn ∉ ([WqOp.push 3, WqOp.wpop, WqOp.close, WqOp.tpop] : List (WqOp Nat)))
    ∧ ((wq_push (wq_run (wq_close (wait_queue.init : wait_queue Nat))
        [WqOp.push 3, WqOp.wpop, WqOp.close, WqOp.tpop]) 5).1 = false)
    ∧ ((wq_push_move (wq_run (wq_close (wait_queue.init : wait_queue Nat))
        [WqOp.push 3, WqOp.wpop, WqOp.close, WqOp.tpop]) 5).1 = false) := by
  refine ⟨by decide, ?_, ?_⟩
  · exact (c8_push_after_close_fails (wait_queue.init : wait_queue Nat)
      [WqOp.push 3, WqOp.wpop, WqOp.close, WqOp.tpop] 5 (by decide)).1
  · exact (c8_push_after_close_fails (wait_queue.init : wait_queue Nat)
      [WqOp.push 3, WqOp.wpop, WqOp.close, WqOp.tpop] 5 (by decide)).2.2.1

/-- C9 counterexample: a closed wait_queue still holding the element 5.
wait_and_pop returns the element, not an empty optional: the claim that a
closed queue always yields an empty optional regardless of remaining
elements is false on the code (`wait_and_pop` pops whenever
`m_data_queue` is non-empty, closed or not). -/
theorem c9_wait_and_pop_nonempty_cex :
    ((⟨[5], true⟩ : wait_queue Nat).m_closed = true)
    ∧ (wq_wait_and_pop (⟨[5], true⟩ : wait_queue Nat) =
        some (some 5, ⟨[], true⟩)) :=
  ⟨rfl, rfl⟩

/-- C9 amended: on a closed wait_queue, wait_and_pop does not block; it
returns an empty optional exactly when no elements remain, and otherwise
dequeues and returns the front element. -/
theorem c9_amended_wait_and_pop_closed {T : Type} (s : wait_queue T)
    (h : s.m_closed = true) :
    (s.m_data_queue = [] → wq_wait_and_pop s = some (none, s))
    ∧ (∀ x rest, s.m_data_queue = x :: rest →
        wq_wait_and_pop s = some (some x, { s with m_data_queue := rest })) := by
  constructor
  · intro hq
    simp [wq_wait_and_pop, h, hq]
  · intro x rest hq
    simp [wq_wait_and_pop, h, hq]

/-- Witness for the amended C9 on closed queues with zero and two
elements. -/
theorem c9_amended_wait_and_pop_closed_witness :
    ((⟨[], true⟩ : wait_queue Nat).m_closed = true ∧
      wq_wait_and_pop (⟨[], true⟩ : wait_queue Nat) = some (none, ⟨[], true⟩))
    ∧ ((⟨[7, 8], true⟩ : wait_queue Nat).m_closed = true ∧
      wq_wait_and_pop (⟨[7, 8], true⟩ : wait_queue Nat) =
        some (some 7, ⟨[8], true⟩)) := by
  refine ⟨⟨rfl, ?_⟩, ⟨rfl, ?_⟩⟩
  · exact (c9_amended_wait_and_pop_closed (⟨[], true⟩ : wait_queue Nat) rfl).1 rfl
  · exact (c9_amended_wait_and_pop_closed (⟨[7, 8], true⟩ : wait_queue Nat)
      rfl).2 7 [8] rfl

/-- C10: open after close re-enables the queue — a push performed after
close(); open() returns true and appends the value, for both push
overloads; so close forbids pushes only until the next open. -/
theorem c10_open_reenables_push {T : Type} (s : wait_queue T) (v : T) :
    (wq_push (wq_open (wq_close s)) v =
      (true, ⟨s.m_data_queue ++ [v], false⟩))
    ∧ (wq_push_move (wq_open (wq_close s)) v =
      (true, ⟨s.m_data_queue ++ [v], false⟩)) := by
  obtain ⟨qq, cl⟩ := s
  exact ⟨rfl, rfl⟩

/-- Witness for C10 on a concrete queue. -/
theorem c10_open_reenables_push_witness :
    wq_push (wq_open (wq_close (⟨[1], false⟩ : wait_queue Nat))) 9 =
      (true, ⟨[1, 9], false⟩) :=
  (c10_open_reenables_push (⟨[1], false⟩ : wait_queue Nat) 9).1

end ChopsNet
